import Mathlib

/-!
# BlackBox: tempo-synced stereo delay (src/BlackBox.cpp)

A shallow embedding of the control stage (`Controls`), the per-sample pipeline
(`GetDelaySample`) and the start-up code of `main`.

Modelling conventions
* `float` values are exact rationals (`ℚ`): every arithmetic operation of the
  source is the corresponding exact operation, the literals `0.001f`, `0.98f`,
  `.0002f`, `0.5f` are `1/1000`, `98/100`, `2/10000`, `1/2`.  Rounding of
  IEEE-754 single precision is not modelled.
* `uint32_t` values are naturals below `2^32`; the one subtraction of the
  source on that type is `u32_sub`, taken modulo `2^32`.
* `int32_t encoder_inc` is an integer.
* The hardware reads made by `Controls` (knobs, switches, encoder, clock) are
  the fields of `ControlInputs`.
* The DaisySP helpers (`fonepole`, `fclamp`, `DelayLine`, `Oscillator`) are not
  part of `src/`; they are modelled from the specification.
-/

namespace BlackBox

/-! ## Constants -/

/-- The macro `MAX_DELAY`, `static_cast<size_t>(48000 * 2.0f)`. -/
def MAX_DELAY : ℕ := Nat.floor ((48000 : ℚ) * 2)

/-- The macro `MAX_TAP_INTERVAL` (milliseconds). -/
def MAX_TAP_INTERVAL : ℕ := 2000

/-! ## DaisySP helpers -/

/-- Modelled from the spec: the DaisySP one-pole smoother `fonepole(out, in, coeff)`,
which is not under `src/`.  Spec 4.1: `current' = current + coefficient * (target - current)`.
The updated value of the reference argument `out` is returned. -/
def fonepole (out inp coeff : ℚ) : ℚ := out + coeff * (inp - out)

/-- Modelled from the spec: the DaisySP clamp `fclamp(in, min, max)`, which is not under
`src/`.  Spec 4.5 step 8: the value is range-clamped to `[min, max]`. -/
def fclamp (x lo hi : ℚ) : ℚ := min (max x lo) hi

/-- Modelled from the spec: the DaisySP `DelayLine<float, Capacity>`, which is not under
`src/`.  Spec 3: a fixed-size circular buffer of samples (`line`, cells `0 .. Capacity-1`),
a write cursor and a current, possibly fractional, read-delay length in samples. -/
structure DelayLine (Capacity : ℕ) where
  line : ℕ → ℚ
  write_ptr : ℕ
  delay : ℚ

namespace DelayLine

variable {Capacity : ℕ}

/-- Modelled from the spec: `init()` zeroes the buffer, resets the cursor and sets the
delay length to 0 (spec 4.2). -/
def Init (_d : DelayLine Capacity) : DelayLine Capacity :=
  { line := fun _ => 0, write_ptr := 0, delay := 0 }

/-- Modelled from the spec: `reset()` zero-fills the buffer and resets the cursor
(spec 4.2); the read length is not mentioned and is kept. -/
def Reset (d : DelayLine Capacity) : DelayLine Capacity :=
  { d with line := fun _ => 0, write_ptr := 0 }

/-- Modelled from the spec: `set_delay(length)`, a length in samples; out-of-range lengths
are clamped, not rejected (spec 4.2).  A length inside `[0, Capacity-1)` is stored as it
is, a negative one as 0, one at or above `Capacity-1` as `Capacity-1`. -/
def SetDelay (d : DelayLine Capacity) (length : ℚ) : DelayLine Capacity :=
  { d with delay := fclamp length 0 ((Capacity : ℚ) - 1) }

/-- The cell index `(write_cursor - k) mod Capacity`. -/
def cellIndex (d : DelayLine Capacity) (k : ℤ) : ℕ :=
  Int.toNat (((d.write_ptr : ℤ) - k) % (Capacity : ℤ))

/-- Modelled from the spec: `read()` returns the sample at
`(write_cursor - delay_length) mod Capacity`, linearly interpolated between the two
nearest integer-indexed cells (spec 4.2). -/
def Read (d : DelayLine Capacity) : ℚ :=
  let a := d.line (d.cellIndex (Int.floor d.delay))
  let b := d.line (d.cellIndex (Int.floor d.delay + 1))
  a + (b - a) * Int.fract d.delay

/-- Modelled from the spec: `write(sample)` stores the sample at the write cursor and
advances the cursor modulo `Capacity` (spec 4.2). -/
def Write (d : DelayLine Capacity) (sample : ℚ) : DelayLine Capacity :=
  { d with line := Function.update d.line d.write_ptr sample,
           write_ptr := (d.write_ptr + 1) % Capacity }

end DelayLine

/-- Modelled from the spec: the DaisySP `Oscillator`, which is not under `src/`.
Spec 3: a phase accumulator and a frequency; `sr` is the sample rate given to `Init`.
The phase is kept as a fraction of one period. -/
structure Oscillator where
  sr : ℚ
  freq : ℚ
  phase : ℚ

namespace Oscillator

/-- Modelled from the spec: `Init(sample_rate)`; the spec fixes no start frequency, the
phase accumulator starts at 0. -/
def Init (_o : Oscillator) (sample_rate : ℚ) : Oscillator :=
  { sr := sample_rate, freq := 0, phase := 0 }

/-- Modelled from the spec: `set_freq(hz)` sets the frequency, the phase is kept
(spec 4.3). -/
def SetFreq (o : Oscillator) (hz : ℚ) : Oscillator :=
  { o with freq := hz }

/-- Modelled from the spec: `process()` advances the phase by `freq / sample_rate`, wrapped
into its period, and returns the waveform value for the current phase (spec 4.3).  The
waveform itself (`WAVE_SIN`) is the parameter `wave`. -/
def Process (wave : ℚ → ℚ) (o : Oscillator) : ℚ × Oscillator :=
  let phase := Int.fract (o.phase + o.freq / o.sr)
  (wave phase, { o with phase := phase })

end Oscillator

/-! ## Program state -/

/-- The file-scope variables of `BlackBox.cpp` read or written by `Controls` and
`GetDelaySample`. -/
structure State where
  dell : DelayLine MAX_DELAY
  delr : DelayLine MAX_DELAY
  osc : Oscillator
  current_delay : ℚ
  feedback : ℚ
  dry_wet_mix : ℚ
  time_as_float : ℚ
  sample_rate : ℚ
  last_tap_time : ℕ
  lfo_active : Bool
  is_clearing : Bool

/-- The values `Controls` obtains from the hardware in one call: the two knob readings,
the switch edges and level, the millisecond clock and the encoder increment. -/
structure ControlInputs where
  feedback_knob : ℚ
  mix_knob : ℚ
  lfo_rising : Bool
  clear_pressed : Bool
  clear_rising : Bool
  tap_rising : Bool
  now : ℕ
  encoder_inc : ℤ

/-- Subtraction on `uint32_t`: `a - b` modulo `2^32`. -/
def u32_sub (a b : ℕ) : ℕ := (a % 2 ^ 32 + 2 ^ 32 - b % 2 ^ 32) % 2 ^ 32

/-- Lines 133-134: the two knob readings. -/
def readKnobs (s : State) (inp : ControlInputs) : State :=
  { s with feedback := inp.feedback_knob * (98 / 100), dry_wet_mix := inp.mix_knob }

/-- Lines 140-150: modulation toggle, clear level and one-shot reset. -/
def readSwitches (s : State) (inp : ControlInputs) : State :=
  let s := if inp.lfo_rising then { s with lfo_active := !s.lfo_active } else s
  let s := { s with is_clearing := inp.clear_pressed }
  if inp.clear_rising then { s with dell := s.dell.Reset, delr := s.delr.Reset } else s

/-- Lines 152-162: tap tempo. -/
def tapTempo (s : State) (inp : ControlInputs) : State :=
  if inp.tap_rising then
    let now := inp.now
    let tap_diff := u32_sub now s.last_tap_time
    let s := if tap_diff < MAX_TAP_INTERVAL then
        { s with time_as_float := (tap_diff : ℚ) * (1 / 1000) * s.sample_rate }
      else s
    { s with last_tap_time := now }
  else s

/-- Lines 164-169: encoder step. -/
def encoderStep (s : State) (inp : ControlInputs) : State :=
  let encoder_inc := inp.encoder_inc
  if encoder_inc ≠ 0 then
    let scale_factor : ℚ := 500
    { s with time_as_float := s.time_as_float + (encoder_inc : ℚ) * scale_factor }
  else s

/-- Lines 171-172: clamp of the target. -/
def clampTarget (s : State) : State :=
  let min_delay : ℚ := 100
  { s with time_as_float := fclamp s.time_as_float min_delay ((MAX_DELAY : ℚ) - 4) }

/-- Lines 174-179: oscillator frequency, guarded by `time_as_float > 0`. -/
def lockOscillator (s : State) : State :=
  if s.time_as_float > 0 then
    let osc_freq := (s.sample_rate / s.time_as_float) * 4
    { s with osc := s.osc.SetFreq osc_freq }
  else s

/-- The function `Controls()` (lines 131-180). -/
def Controls (s : State) (inp : ControlInputs) : State :=
  lockOscillator (clampTarget (encoderStep (tapTempo (readSwitches (readKnobs s inp) inp) inp) inp))

/-- The function `GetDelaySample(outl, outr, inl, inr)` (lines 183-217); the result is the
new state with `outl` and `outr`. -/
def GetDelaySample (wave : ℚ → ℚ) (s : State) (inl inr : ℚ) : State × ℚ × ℚ :=
  if s.is_clearing then
    ({ s with dell := s.dell.Write 0, delr := s.delr.Write 0 }, inl, inr)
  else
    let current_delay := fonepole s.current_delay s.time_as_float (2 / 10000)
    let dell := s.dell.SetDelay current_delay
    let delr := s.delr.SetDelay current_delay
    let wetl := dell.Read
    let wetr := delr.Read
    let p := Oscillator.Process wave s.osc
    let osc_mod := (p.1 + 1) * (1 / 2)
    let osc := if s.lfo_active then p.2 else s.osc
    let wetl := if s.lfo_active then wetl * osc_mod else wetl
    let wetr := if s.lfo_active then wetr * osc_mod else wetr
    let feedback_l := inl + wetl * s.feedback
    let feedback_r := inr + wetr * s.feedback
    ({ s with current_delay := current_delay, osc := osc,
              dell := dell.Write feedback_l, delr := delr.Write feedback_r },
      wetl * s.dry_wet_mix + inl * (1 - s.dry_wet_mix),
      wetr * s.dry_wet_mix + inr * (1 - s.dry_wet_mix))

/-- The variables before `main` runs: zero-initialised statics, `lfo_active` and
`is_clearing` false. -/
def zeroState : State :=
  { dell := { line := fun _ => 0, write_ptr := 0, delay := 0 },
    delr := { line := fun _ => 0, write_ptr := 0, delay := 0 },
    osc := { sr := 0, freq := 0, phase := 0 },
    current_delay := 0, feedback := 0, dry_wet_mix := 0, time_as_float := 0,
    sample_rate := 0, last_tap_time := 0, lfo_active := false, is_clearing := false }

/-- The start-up code of `main` (lines 67-99) for the sample rate reported by the
hardware: the state when the first callback can run. -/
def startup (hw_sample_rate : ℚ) : State :=
  let s := { zeroState with sample_rate := hw_sample_rate }
  let s := { s with dell := s.dell.Init, delr := s.delr.Init }
  let s := { s with osc := s.osc.Init s.sample_rate }
  let s := { s with time_as_float := s.sample_rate * (1 / 2) }
  let s := { s with current_delay := fonepole s.current_delay s.time_as_float 1 }
  { s with dell := s.dell.SetDelay s.current_delay, delr := s.delr.SetDelay s.current_delay }

/-- The state on which the guard `time_as_float > 0` of `Controls` is evaluated. -/
def beforeLock (s : State) (inp : ControlInputs) : State :=
  clampTarget (encoderStep (tapTempo (readSwitches (readKnobs s inp) inp) inp) inp)

/-- The hardware reads of a call that sees nothing but a tap edge at clock reading `now`. -/
def tapAt (now : ℕ) : ControlInputs :=
  { feedback_knob := 1 / 2, mix_knob := 1 / 2, lfo_rising := false, clear_pressed := false,
    clear_rising := false, tap_rising := true, now := now, encoder_inc := 0 }

/-- The hardware reads of a call that sees nothing but an encoder increment. -/
def turnBy (k : ℤ) : ControlInputs :=
  { feedback_knob := 1 / 2, mix_knob := 1 / 2, lfo_rising := false, clear_pressed := false,
    clear_rising := false, tap_rising := false, now := 0, encoder_inc := k }

theorem MAX_DELAY_eq : MAX_DELAY = 96000 := by
  norm_num [MAX_DELAY]

theorem MAX_DELAY_cast : ((MAX_DELAY : ℕ) : ℚ) - 4 = 95996 := by
  rw [MAX_DELAY_eq]; norm_num

theorem fclamp_bounds (x lo hi : ℚ) (h : lo ≤ hi) : lo ≤ fclamp x lo hi ∧ fclamp x lo hi ≤ hi := by
  unfold fclamp
  exact ⟨le_min (le_max_right _ _) h, min_le_right _ _⟩

theorem fclamp_of_mem (x lo hi : ℚ) (h1 : lo ≤ x) (h2 : x ≤ hi) : fclamp x lo hi = x := by
  unfold fclamp
  rw [max_eq_left h1, min_eq_left h2]

theorem fclamp_of_lt (x lo hi : ℚ) (h : lo ≤ hi) (h1 : x < lo) : fclamp x lo hi = lo := by
  unfold fclamp
  rw [max_eq_right h1.le, min_eq_left h]

theorem fclamp_of_gt (x lo hi : ℚ) (h1 : hi < x) : fclamp x lo hi = hi := by
  unfold fclamp
  exact min_eq_right (le_trans h1.le (le_max_left _ _))

/-- The target written by `Controls`, in closed form. -/
theorem Controls_time_as_float (s : State) (inp : ControlInputs) :
    (Controls s inp).time_as_float =
      fclamp ((if inp.tap_rising = true ∧ u32_sub inp.now s.last_tap_time < MAX_TAP_INTERVAL
                then (u32_sub inp.now s.last_tap_time : ℚ) * (1 / 1000) * s.sample_rate
                else s.time_as_float) + (inp.encoder_inc : ℚ) * 500)
        100 ((MAX_DELAY : ℚ) - 4) := by
  unfold Controls lockOscillator clampTarget encoderStep tapTempo readSwitches readKnobs
  by_cases h1 : inp.tap_rising = true <;>
  by_cases h2 : u32_sub inp.now s.last_tap_time < MAX_TAP_INTERVAL <;>
  by_cases h3 : inp.encoder_inc = 0 <;>
  by_cases h4 : inp.clear_rising = true <;>
  by_cases h5 : inp.lfo_rising = true <;>
  simp [h1, h2, h3, h4, h5] <;> split_ifs <;> rfl

/-- The tap time stamp written by `Controls`, in closed form. -/
theorem Controls_last_tap_time (s : State) (inp : ControlInputs) :
    (Controls s inp).last_tap_time = if inp.tap_rising = true then inp.now else s.last_tap_time := by
  unfold Controls lockOscillator clampTarget encoderStep tapTempo readSwitches readKnobs
  by_cases h1 : inp.tap_rising = true <;>
  by_cases h2 : u32_sub inp.now s.last_tap_time < MAX_TAP_INTERVAL <;>
  by_cases h3 : inp.encoder_inc = 0 <;>
  by_cases h4 : inp.clear_rising = true <;>
  by_cases h5 : inp.lfo_rising = true <;>
  simp [h1, h2, h3, h4, h5] <;> split_ifs <;> rfl

theorem Controls_sample_rate (s : State) (inp : ControlInputs) :
    (Controls s inp).sample_rate = s.sample_rate := by
  unfold Controls lockOscillator clampTarget encoderStep tapTempo readSwitches readKnobs
  by_cases h1 : inp.tap_rising = true <;>
  by_cases h2 : u32_sub inp.now s.last_tap_time < MAX_TAP_INTERVAL <;>
  by_cases h3 : inp.encoder_inc = 0 <;>
  by_cases h4 : inp.clear_rising = true <;>
  by_cases h5 : inp.lfo_rising = true <;>
  simp [h1, h2, h3, h4, h5] <;> split_ifs <;> rfl

theorem Controls_time_bounds (s : State) (inp : ControlInputs) :
    100 ≤ (Controls s inp).time_as_float ∧ (Controls s inp).time_as_float ≤ 95996 := by
  rw [Controls_time_as_float, MAX_DELAY_cast]
  exact fclamp_bounds _ _ _ (by norm_num)

theorem u32_sub_add (p e : ℕ) (hp : p < 2 ^ 32) (he : e < 2 ^ 32) :
    u32_sub ((p + e) % 2 ^ 32) p = e := by
  unfold u32_sub
  omega

/-- The effect of a rejected tap on the whole state: the call differs from the same call
without the tap edge only in `last_tap_time`. -/
theorem Controls_rejected_tap_state (s : State) (inp : ControlInputs)
    (htap : inp.tap_rising = true)
    (hrej : MAX_TAP_INTERVAL ≤ u32_sub inp.now s.last_tap_time) :
    Controls s inp =
      { Controls s { inp with tap_rising := false } with last_tap_time := inp.now } := by
  have h2 : ¬ u32_sub inp.now s.last_tap_time < MAX_TAP_INTERVAL := not_lt.mpr hrej
  unfold Controls lockOscillator clampTarget encoderStep tapTempo readSwitches readKnobs
  by_cases h3 : inp.encoder_inc = 0 <;>
  by_cases h4 : inp.clear_rising = true <;>
  by_cases h5 : inp.lfo_rising = true <;>
  simp [htap, h2, h3, h4, h5] <;> split_ifs <;> rfl

/-! ## Tap tempo -/

/-- C1, as stated, fails: at start-up for 48000 Hz (target 24000, `last_tap_time = 0`) a
first tap handled at clock reading 1000 ms with encoder increment 0 moves the target from
24000 to 48000. -/
theorem first_tap_updates_target :
    (startup 48000).last_tap_time = 0 ∧
    (tapAt 1000).tap_rising = true ∧ (tapAt 1000).encoder_inc = 0 ∧
    (startup 48000).time_as_float = 24000 ∧
    (100 : ℚ) ≤ (startup 48000).time_as_float ∧
    (startup 48000).time_as_float ≤ (MAX_DELAY : ℚ) - 4 ∧
    (Controls (startup 48000) (tapAt 1000)).time_as_float = 48000 ∧
    (Controls (startup 48000) (tapAt 1000)).time_as_float ≠ (startup 48000).time_as_float := by
  have h : (Controls (startup 48000) (tapAt 1000)).time_as_float = 48000 := by
    rw [Controls_time_as_float, MAX_DELAY_cast]
    norm_num [startup, zeroState, tapAt, u32_sub, MAX_TAP_INTERVAL, fclamp, fonepole]
  have h0 : (startup 48000).time_as_float = 24000 := by
    norm_num [startup, zeroState]
  refine ⟨rfl, rfl, rfl, h0, ?_, ?_, h, ?_⟩
  · rw [h0]; norm_num
  · rw [h0, MAX_DELAY_cast]; norm_num
  · rw [h, h0]; norm_num

/-- C1, amended: in a start-up state (`last_tap_time = 0`) with the target already in
`[100, MAX_DELAY-4]`, a first tap handled at a clock reading `now` with
`2000 ≤ now < 2^32` and encoder increment 0 leaves `time_as_float` unchanged, sets
`last_tap_time` to `now`, and the call differs from the same call without the tap edge
only in `last_tap_time`; a first tap at `now < 2000` is accepted with interval `now`. -/
theorem first_tap_late_keeps_target (s : State) (inp : ControlInputs)
    (hstart : s.last_tap_time = 0) (htap : inp.tap_rising = true)
    (hnow : inp.now < 2 ^ 32) (henc : inp.encoder_inc = 0)
    (hlo : 100 ≤ s.time_as_float) (hhi : s.time_as_float ≤ (MAX_DELAY : ℚ) - 4) :
    (MAX_TAP_INTERVAL ≤ inp.now →
      (Controls s inp).time_as_float = s.time_as_float ∧
      (Controls s inp).last_tap_time = inp.now ∧
      Controls s inp =
        { Controls s { inp with tap_rising := false } with last_tap_time := inp.now }) ∧
    (inp.now < MAX_TAP_INTERVAL →
      (Controls s inp).time_as_float =
        fclamp ((inp.now : ℚ) * s.sample_rate / 1000) 100 ((MAX_DELAY : ℚ) - 4) ∧
      (Controls s inp).last_tap_time = inp.now) := by
  have hd : u32_sub inp.now s.last_tap_time = inp.now := by
    rw [hstart]; unfold u32_sub; omega
  constructor
  · intro hrej
    refine ⟨?_, ?_, ?_⟩
    · rw [Controls_time_as_float, hd, henc, if_neg (fun h => absurd h.2 (not_lt.mpr hrej))]
      simp only [Int.cast_zero, zero_mul, add_zero]
      exact fclamp_of_mem _ _ _ hlo hhi
    · rw [Controls_last_tap_time, if_pos htap]
    · exact Controls_rejected_tap_state s inp htap (by rw [hd]; exact hrej)
  · intro hacc
    refine ⟨?_, ?_⟩
    · rw [Controls_time_as_float, hd, henc, if_pos ⟨htap, hacc⟩]
      simp only [Int.cast_zero, zero_mul, add_zero]
      congr 1
      ring
    · rw [Controls_last_tap_time, if_pos htap]

/-- Witness of `first_tap_late_keeps_target`: start-up at 48000 Hz, first tap at 5000 ms. -/
theorem first_tap_late_keeps_target_witness :
    (Controls (startup 48000) (tapAt 5000)).time_as_float = (startup 48000).time_as_float ∧
    (Controls (startup 48000) (tapAt 5000)).last_tap_time = 5000 := by
  have h := (first_tap_late_keeps_target (startup 48000) (tapAt 5000) rfl rfl
    (by norm_num [tapAt]) rfl (by norm_num [startup, zeroState])
    (by rw [MAX_DELAY_cast]; norm_num [startup, zeroState])).1
    (by norm_num [tapAt, MAX_TAP_INTERVAL])
  exact ⟨h.1, h.2.1⟩

/-- C3: on every tap rising edge `last_tap_time` becomes `now`; and when
`tap_diff = now - last_tap_time ≥ 2000` (the boundary 2000 included), the encoder
increment is 0 and the target is already in `[100, MAX_DELAY-4]`, the target is
unchanged. -/
theorem rejected_tap_keeps_target (s : State) (inp : ControlInputs)
    (htap : inp.tap_rising = true) :
    (Controls s inp).last_tap_time = inp.now ∧
    (MAX_TAP_INTERVAL ≤ u32_sub inp.now s.last_tap_time → inp.encoder_inc = 0 →
      100 ≤ s.time_as_float → s.time_as_float ≤ (MAX_DELAY : ℚ) - 4 →
      (Controls s inp).time_as_float = s.time_as_float) := by
  refine ⟨by rw [Controls_last_tap_time, if_pos htap], ?_⟩
  intro hrej henc hlo hhi
  rw [Controls_time_as_float, henc, if_neg (fun h => absurd h.2 (not_lt.mpr hrej))]
  simp only [Int.cast_zero, zero_mul, add_zero]
  exact fclamp_of_mem _ _ _ hlo hhi

/-- Witness of `rejected_tap_keeps_target`: at 48000 Hz, taps at 1000 ms and 3500 ms
(2500 ms apart) keep the target 24000, and so do taps exactly 2000 ms apart. -/
theorem rejected_tap_keeps_target_witness :
    (Controls { startup 48000 with last_tap_time := 1000 } (tapAt 3500)).last_tap_time = 3500 ∧
    (Controls { startup 48000 with last_tap_time := 1000 } (tapAt 3500)).time_as_float
      = 24000 ∧
    (Controls { startup 48000 with last_tap_time := 1000 } (tapAt 3000)).time_as_float
      = 24000 := by
  have h := rejected_tap_keeps_target { startup 48000 with last_tap_time := 1000 }
    (tapAt 3500) rfl
  have h2 := rejected_tap_keeps_target { startup 48000 with last_tap_time := 1000 }
    (tapAt 3000) rfl
  refine ⟨h.1, ?_, ?_⟩
  · rw [h.2 (by norm_num [tapAt, u32_sub, MAX_TAP_INTERVAL]) rfl
      (by norm_num [startup, zeroState])
      (by rw [MAX_DELAY_cast]; norm_num [startup, zeroState])]
    norm_num [startup, zeroState]
  · rw [h2.2 (by norm_num [tapAt, u32_sub, MAX_TAP_INTERVAL]) rfl
      (by norm_num [startup, zeroState])
      (by rw [MAX_DELAY_cast]; norm_num [startup, zeroState])]
    norm_num [startup, zeroState]

/-! ## Encoder, clamp and modulation lock -/

/-- C4: `MAX_DELAY = 96000`; after every `Controls` call the target lies in
`[100, 95996]`; and a call without a tap, from prior target `t` with encoder increment
`k`, leaves `clamp (t + 500 k) 100 95996`: exactly 100 when `t + 500 k < 100`,
exactly 95996 when `t + 500 k > 95996`, and `t` itself when `k = 0` and `t` is in range. -/
theorem encoder_step_and_clamp (s : State) (inp : ControlInputs) :
    MAX_DELAY = 96000 ∧
    (100 ≤ (Controls s inp).time_as_float ∧ (Controls s inp).time_as_float ≤ 95996) ∧
    (inp.tap_rising = false →
      (Controls s inp).time_as_float =
        fclamp (s.time_as_float + 500 * (inp.encoder_inc : ℚ)) 100 ((MAX_DELAY : ℚ) - 4) ∧
      (s.time_as_float + 500 * (inp.encoder_inc : ℚ) < 100 →
        (Controls s inp).time_as_float = 100) ∧
      (95996 < s.time_as_float + 500 * (inp.encoder_inc : ℚ) →
        (Controls s inp).time_as_float = 95996) ∧
      (inp.encoder_inc = 0 → 100 ≤ s.time_as_float → s.time_as_float ≤ 95996 →
        (Controls s inp).time_as_float = s.time_as_float)) := by
  refine ⟨MAX_DELAY_eq, Controls_time_bounds s inp, ?_⟩
  intro hno
  have h : (Controls s inp).time_as_float =
      fclamp (s.time_as_float + 500 * (inp.encoder_inc : ℚ)) 100 ((MAX_DELAY : ℚ) - 4) := by
    rw [Controls_time_as_float, if_neg (fun h => by simp [hno] at h), mul_comm]
  refine ⟨h, ?_, ?_, ?_⟩
  · intro hlt
    rw [h, MAX_DELAY_cast]
    exact fclamp_of_lt _ _ _ (by norm_num) hlt
  · intro hgt
    rw [h, MAX_DELAY_cast]
    exact fclamp_of_gt _ _ _ hgt
  · intro hk hlo hhi
    rw [h, MAX_DELAY_cast, hk]
    simp only [Int.cast_zero, mul_zero, add_zero]
    exact fclamp_of_mem _ _ _ hlo hhi

/-- Witness of `encoder_step_and_clamp`: from the start-up target 24000 at 48000 Hz,
an increment of -48 clamps to exactly 100, an increment of +200 to exactly 95996, and an
increment of 0 keeps 24000. -/
theorem encoder_step_and_clamp_witness :
    (Controls (startup 48000) (turnBy (-48))).time_as_float = 100 ∧
    (Controls (startup 48000) (turnBy 200)).time_as_float = 95996 ∧
    (Controls (startup 48000) (turnBy 0)).time_as_float = (startup 48000).time_as_float := by
  refine ⟨?_, ?_, ?_⟩
  · exact ((encoder_step_and_clamp (startup 48000) (turnBy (-48))).2.2 rfl).2.1
      (by norm_num [startup, zeroState, turnBy])
  · exact ((encoder_step_and_clamp (startup 48000) (turnBy 200)).2.2 rfl).2.2.1
      (by norm_num [startup, zeroState, turnBy])
  · exact ((encoder_step_and_clamp (startup 48000) (turnBy 0)).2.2 rfl).2.2.2 rfl
      (by norm_num [startup, zeroState]) (by norm_num [startup, zeroState])

/-- C5: whatever the inputs and the prior state, the guard `time_as_float > 0` holds where
`Controls` evaluates it (the clamped target is at least 100), so `SetFreq` is always called,
and the frequency held by the oscillator after the call is
`(sample_rate / time_as_float) * 4` for the clamped target left by that call. -/
theorem modulation_lock (s : State) (inp : ControlInputs) :
    100 ≤ (beforeLock s inp).time_as_float ∧
    (beforeLock s inp).time_as_float > 0 ∧
    Controls s inp =
      { beforeLock s inp with
        osc := (beforeLock s inp).osc.SetFreq
          ((beforeLock s inp).sample_rate / (beforeLock s inp).time_as_float * 4) } ∧
    (Controls s inp).time_as_float = (beforeLock s inp).time_as_float ∧
    (Controls s inp).osc.freq =
      ((Controls s inp).sample_rate / (Controls s inp).time_as_float) * 4 := by
  have hb : 100 ≤ (beforeLock s inp).time_as_float := by
    have h : (beforeLock s inp).time_as_float =
        fclamp (encoderStep (tapTempo (readSwitches (readKnobs s inp) inp) inp) inp).time_as_float
          100 ((MAX_DELAY : ℚ) - 4) := rfl
    rw [h, MAX_DELAY_cast]
    exact (fclamp_bounds _ _ _ (by norm_num)).1
  have hpos : (beforeLock s inp).time_as_float > 0 := lt_of_lt_of_le (by norm_num) hb
  have hC : Controls s inp =
      { beforeLock s inp with
        osc := (beforeLock s inp).osc.SetFreq
          ((beforeLock s inp).sample_rate / (beforeLock s inp).time_as_float * 4) } := by
    show lockOscillator (beforeLock s inp) = _
    unfold lockOscillator
    rw [if_pos hpos]
  refine ⟨hb, hpos, hC, ?_, ?_⟩
  · rw [hC]
  · rw [hC]
    rfl

/-! ## Clock wrap-around -/

/-- C10: with the previous tap at `p` and a true elapsed time `e`, both below `2^32`, and
the clock reading `now = (p + e) mod 2^32`, the computed `tap_diff` is `e` (also when the
clock wrapped, `now < p`), the test `tap_diff < 2000` is `e < 2000`, and a `Controls` call
handling that tap with encoder increment 0 accepts or rejects it according to `e`. -/
theorem tap_diff_survives_wrap (p e : ℕ) (hp : p < 2 ^ 32) (he : e < 2 ^ 32) :
    u32_sub ((p + e) % 2 ^ 32) p = e ∧
    (u32_sub ((p + e) % 2 ^ 32) p < MAX_TAP_INTERVAL ↔ e < 2000) ∧
    ∀ (s : State) (inp : ControlInputs), s.last_tap_time = p → inp.now = (p + e) % 2 ^ 32 →
      inp.tap_rising = true → inp.encoder_inc = 0 →
      (Controls s inp).time_as_float =
        fclamp (if e < 2000 then (e : ℚ) * (1 / 1000) * s.sample_rate else s.time_as_float)
          100 ((MAX_DELAY : ℚ) - 4) := by
  have h := u32_sub_add p e hp he
  refine ⟨h, by rw [h]; rfl, ?_⟩
  intro s inp hs hn htap henc
  rw [Controls_time_as_float, hs, hn, h, henc]
  simp only [Int.cast_zero, zero_mul, add_zero, htap, true_and]
  rfl

/-- Witness of `tap_diff_survives_wrap`: previous tap 100 ms before the clock wraps,
600 ms elapsed, so `now = 500 < p`; the tap is accepted with interval 600 ms (28800
samples at 48000 Hz). -/
theorem tap_diff_survives_wrap_witness :
    (4294967196 + 600) % 2 ^ 32 = 500 ∧
    u32_sub 500 4294967196 = 600 ∧
    (Controls { startup 48000 with last_tap_time := 4294967196 } (tapAt 500)).time_as_float
      = 28800 := by
  have h := tap_diff_survives_wrap 4294967196 600 (by norm_num) (by norm_num)
  refine ⟨by norm_num, h.1, ?_⟩
  rw [h.2.2 { startup 48000 with last_tap_time := 4294967196 } (tapAt 500) rfl
    (by norm_num [tapAt]) rfl rfl, MAX_DELAY_cast]
  norm_num [startup, zeroState, fclamp]

/-! ## Clear-held pass-through -/

/-- C6: with `is_clearing` set, `GetDelaySample` returns `outl = inl` and `outr = inr`
whatever the feedback, mix, modulation flag and line contents; it writes the sample 0 to
both delay lines and changes nothing else: `current_delay`, both read lengths and the
oscillator are as before. -/
theorem clear_held_pass_through (wave : ℚ → ℚ) (s : State) (inl inr : ℚ)
    (hclear : s.is_clearing = true) :
    (GetDelaySample wave s inl inr).2.1 = inl ∧
    (GetDelaySample wave s inl inr).2.2 = inr ∧
    (GetDelaySample wave s inl inr).1 =
      { s with dell := s.dell.Write 0, delr := s.delr.Write 0 } ∧
    (GetDelaySample wave s inl inr).1.dell.line s.dell.write_ptr = 0 ∧
    (GetDelaySample wave s inl inr).1.delr.line s.delr.write_ptr = 0 ∧
    (GetDelaySample wave s inl inr).1.current_delay = s.current_delay ∧
    (GetDelaySample wave s inl inr).1.dell.delay = s.dell.delay ∧
    (GetDelaySample wave s inl inr).1.delr.delay = s.delr.delay ∧
    (GetDelaySample wave s inl inr).1.osc = s.osc := by
  have h : GetDelaySample wave s inl inr =
      ({ s with dell := s.dell.Write 0, delr := s.delr.Write 0 }, inl, inr) := by
    unfold GetDelaySample
    rw [if_pos hclear]
  rw [h]
  refine ⟨rfl, rfl, rfl, ?_, ?_, rfl, rfl, rfl, rfl⟩
  · simp [DelayLine.Write]
  · simp [DelayLine.Write]

/-- Witness of `clear_held_pass_through`: clear held with feedback 9/10, mix 1 and the
modulation on; the input pair (3/7, -2) comes out unchanged. -/
theorem clear_held_pass_through_witness :
    (GetDelaySample (fun _ => 1)
      { startup 48000 with is_clearing := true, feedback := 9 / 10, dry_wet_mix := 1,
                           lfo_active := true } (3 / 7) (-2)).2.1 = 3 / 7 ∧
    (GetDelaySample (fun _ => 1)
      { startup 48000 with is_clearing := true, feedback := 9 / 10, dry_wet_mix := 1,
                           lfo_active := true } (3 / 7) (-2)).2.2 = -2 :=
  ⟨(clear_held_pass_through (fun _ => 1)
      { startup 48000 with is_clearing := true, feedback := 9 / 10, dry_wet_mix := 1,
                           lfo_active := true } (3 / 7) (-2) rfl).1,
   (clear_held_pass_through (fun _ => 1)
      { startup 48000 with is_clearing := true, feedback := 9 / 10, dry_wet_mix := 1,
                           lfo_active := true } (3 / 7) (-2) rfl).2.1⟩

/-! ## Read length stays inside the buffer -/

end BlackBox
